import Mathlib

/-!
Verification of the data-access layer of a research-lab website backend
(`server/crud.py`), shallowly embedded in Lean 4.

Modelling conventions, used throughout:

* Python strings are modelled as `List Char` (abbreviated `Str`), so that
  every definition evaluates inside the kernel on concrete inputs.
* A pydantic input object is modelled by the record of the payload produced
  by `dict(exclude_unset=True)`: a field of the record is `some v` exactly
  when the field is present in that payload with value `v`, and `none` when
  it is absent.  Nullable database columns are modelled as `Option` values
  on the row structures.
* A database table is modelled as a `List` of row structures.  The query
  `db.query(M).filter(M.id == i).first()` is `findById`, the in-place
  `setattr` mutation of a fetched row followed by `commit` is `replaceById`,
  `db.delete` of a fetched row is `eraseById`, and `db.add` appends.
* `ORDER BY` clauses are modelled by `List.insertionSort` with the
  corresponding relation (a stable sort, matching the fetch order that the
  grouping code then preserves).
* Python functions that signal absence with `None`/`False` return
  `Option`/`Bool` here; no exception is representable, which is exactly the
  "never raises" contract of the layer.
-/

/-- Python strings, modelled as lists of characters so that all string
operations reduce in the kernel. -/
abbrev Str : Type := List Char

/-- Python `str.lower()` restricted to the alphabet actually stored
(ASCII degree/status strings): lowercases every character. -/
def pyLower (s : Str) : Str := s.map Char.toLower

/-- `setattr`-style application of one entry of a `dict(exclude_unset=True)`
payload: a present value overwrites the stored one, an absent field keeps
the stored value.  For a nullable column the stored value is an `Option`
and a present value `v` is written as `some v`. -/
def applyField {β : Type} (incoming : Option β) (current : β) : β :=
  match incoming with
  | some v => v
  | none => current

theorem applyField_none {β : Type} (current : β) :
    applyField (none : Option β) current = current := rfl

theorem applyField_idem {β : Type} (o : Option β) (x : β) :
    applyField o (applyField o x) = applyField o x := by
  cases o <;> rfl

theorem applyField_map_some {β : Type} (o : Option β) :
    applyField (o.map some) o = o := by
  cases o <;> rfl

/-- `db.query(M).filter(M.id == i).first()`: the first row of the table
whose identifier column equals `i`. -/
def findById {α : Type} (idOf : α → Str) : List α → Str → Option α
  | [], _ => none
  | x :: rest, i => if idOf x = i then some x else findById idOf rest i

/-- Committing an in-place mutation of the row fetched by id `i`: the first
row whose identifier equals `i` is replaced by `y`. -/
def replaceById {α : Type} (idOf : α → Str) : List α → Str → α → List α
  | [], _, _ => []
  | x :: rest, i, y => if idOf x = i then y :: rest else x :: replaceById idOf rest i y

/-- `db.delete` of the row fetched by id `i`: the first row whose
identifier equals `i` is removed. -/
def eraseById {α : Type} (idOf : α → Str) : List α → Str → List α
  | [], _ => []
  | x :: rest, i => if idOf x = i then rest else x :: eraseById idOf rest i

/-- Number of rows with identifier `i`; a primary-key column has at most
one. -/
def countById {α : Type} (idOf : α → Str) (store : List α) (i : Str) : Nat :=
  store.countP (fun x => decide (idOf x = i))

/-- The common shape of the `update_*` functions of `crud.py`: fetch by id,
return `None` leaving the store unchanged when absent, otherwise apply the
present fields of the payload and commit. -/
def updateById {α β : Type} (idOf : α → Str) (app : α → β → α)
    (store : List α) (i : Str) (patch : β) : Option α × List α :=
  match findById idOf store i with
  | none => (none, store)
  | some x => (some (app x patch), replaceById idOf store i (app x patch))

/-- The common shape of the `delete_*` functions of `crud.py`: fetch by id,
return `False` when absent, otherwise delete the fetched row and return
`True`. -/
def deleteById {α : Type} (idOf : α → Str) (store : List α) (i : Str) :
    Bool × List α :=
  match findById idOf store i with
  | none => (false, store)
  | some _ => (true, eraseById idOf store i)

/-! ### User (`schemas.UserCreate`, `models.User`, user CRUD of `crud.py`) -/

/-- Input of `create_user`, mirroring `schemas.UserCreate`. -/
structure UserCreate where
  email : Str
  firstName : Str
  lastName : Str
  password : Str
  deriving DecidableEq

/-- A persisted `models.User` row (fields touched by this layer). -/
structure User where
  id : Str
  email : Str
  hashed_password : Str
  firstName : Str
  lastName : Str
  isApproved : Bool
  isAdmin : Bool
  deriving DecidableEq

/-- `crud.create_user`: builds the row with `isApproved=False` and
`isAdmin=False`, adds and commits it.  The generated identifier is passed
in as `newId`. -/
def create_user (user : UserCreate) (hashed_password : Str) (newId : Str) :
    User :=
  { id := newId
    email := user.email
    hashed_password := hashed_password
    firstName := user.firstName
    lastName := user.lastName
    isApproved := false
    isAdmin := false }

/-- `crud.approve_user`: fetch by id; if found, set `isApproved = True` and
commit; return the row or `None`. -/
def approve_user (store : List User) (user_id : Str) :
    Option User × List User :=
  updateById User.id (fun u (_ : Unit) => { u with isApproved := true })
    store user_id ()

/-! ### Publication and Author -/

/-- Input of the publication create/update operations: the
`dict(exclude_unset=True)` payload of a `schemas.PublicationCreate`.
A field is `some v` exactly when present in the payload. -/
structure PublicationCreate where
  title : Option Str := none
  journal : Option Str := none
  conference : Option Str := none
  year : Option Int := none
  type : Option Str := none
  abstract : Option Str := none
  pdfUrl : Option Str := none
  imageUrl : Option Str := none
  order : Option Int := none
  deriving DecidableEq

/-- A persisted `models.Publication` row (fields set by this layer; columns
not supplied at creation keep their `none` default). -/
structure Publication where
  id : Str
  title : Option Str
  journal : Option Str
  conference : Option Str
  year : Option Int
  type : Option Str
  abstract : Option Str
  pdfUrl : Option Str
  imageUrl : Option Str
  displayOrder : Option Int
  authorId : Str
  deriving DecidableEq

/-- Input of author creation: the payload of a `schemas.AuthorCreate`
(`name` is a required field of the schema, so it is always present;
`homepage`/`order` are `some` exactly when supplied). -/
structure AuthorCreate where
  name : Str
  homepage : Option Str := none
  order : Option Int := none
  deriving DecidableEq

/-- A persisted `models.Author` row. -/
structure Author where
  name : Str
  homepage : Option Str
  displayOrder : Option Int
  publicationId : Str
  deriving DecidableEq

/-- The author loop of `crud.create_publication`: for each `author_data` at
zero-based index `idx` (the `enumerate` counter), pop `order` from the
payload with default `idx` and persist it as `displayOrder`. -/
def mkAuthors (publicationId : Str) : Nat → List AuthorCreate → List Author
  | _, [] => []
  | idx, a :: rest =>
      { name := a.name
        homepage := a.homepage
        displayOrder := some (a.order.getD (idx : Int))
        publicationId := publicationId } :: mkAuthors publicationId (idx + 1) rest

/-- `crud.create_publication`: pops `order` from the publication payload
(default `0`) into `displayOrder`, persists and flushes the publication row
so its generated id (`newId`) is available, then persists one author row
per entry of `authors_data` and commits.  Returns the publication row and
the author rows it persisted. -/
def create_publication (publication : PublicationCreate) (author_id : Str)
    (authors_data : List AuthorCreate) (newId : Str) :
    Publication × List Author :=
  let pub_display_order := publication.order.getD 0
  ({ id := newId
     title := publication.title
     journal := publication.journal
     conference := publication.conference
     year := publication.year
     type := publication.type
     abstract := publication.abstract
     pdfUrl := publication.pdfUrl
     imageUrl := publication.imageUrl
     displayOrder := some pub_display_order
     authorId := author_id },
   mkAuthors newId 0 authors_data)

/-- The `setattr` loop of `crud.update_publication`: every present field of
the payload is applied; `order`, when present, is renamed to
`displayOrder` first.  Absent fields keep their stored values. -/
def applyPublicationUpdates (p : Publication) (u : PublicationCreate) :
    Publication :=
  { p with
    title := applyField (u.title.map some) p.title
    journal := applyField (u.journal.map some) p.journal
    conference := applyField (u.conference.map some) p.conference
    year := applyField (u.year.map some) p.year
    type := applyField (u.type.map some) p.type
    abstract := applyField (u.abstract.map some) p.abstract
    pdfUrl := applyField (u.pdfUrl.map some) p.pdfUrl
    imageUrl := applyField (u.imageUrl.map some) p.imageUrl
    displayOrder := applyField (u.order.map some) p.displayOrder }

/-- `crud.update_publication`. -/
def update_publication (store : List Publication) (publication_id : Str)
    (publication : PublicationCreate) : Option Publication × List Publication :=
  updateById Publication.id applyPublicationUpdates store publication_id publication

/-- `crud.delete_publication` (the cascade delete of the publication's
author rows happens inside the storage engine). -/
def delete_publication (store : List Publication) (publication_id : Str) :
    Bool × List Publication :=
  deleteById Publication.id store publication_id

/-- Modelled from the spec: the database column default for
`Author.displayOrder`.  The model declarations (`models.py`) are not among
the sources; `crud.create_author` passes no `displayOrder`, so the
persisted value is this column default, which is independent of the input.
The schema layer (`schemas.AuthorBase.order`) defaults the field to `0`. -/
def authorDisplayOrderDefault : Option Int := some 0

/-- `crud.create_author`: builds the row from `author.name`,
`author.homepage` and the given publication id only; the input's `order`
field is not read. -/
def create_author (author : AuthorCreate) (publication_id : Str) : Author :=
  { name := author.name
    homepage := author.homepage
    displayOrder := authorDisplayOrderDefault
    publicationId := publication_id }

/-! ### News -/

/-- A persisted `models.News` row; `publishedAt` is the timestamp the news
queries order by, modelled as an integer instant. -/
structure News where
  id : Str
  title : Str
  content : Str
  summary : Option Str
  imageUrl : Option Str
  publishedAt : Int
  authorId : Str
  isPublished : Bool
  deriving DecidableEq

/-- The `ORDER BY desc(News.publishedAt)` relation. -/
def newsDesc (a b : News) : Prop := b.publishedAt ≤ a.publishedAt

instance : DecidableRel newsDesc := fun a b =>
  inferInstanceAs (Decidable (b.publishedAt ≤ a.publishedAt))

instance : IsTotal News newsDesc :=
  ⟨fun a b => le_total b.publishedAt a.publishedAt⟩

instance : IsTrans News newsDesc :=
  ⟨fun _ _ _ hab hbc => le_trans hbc hab⟩

/-- `crud.get_all_news`: all news rows ordered descending by
`publishedAt`. -/
def get_all_news (store : List News) : List News :=
  List.insertionSort newsDesc store

/-- `crud.get_recent_news`: the same descending query with `LIMIT`. -/
def get_recent_news (store : List News) (limit : Nat) : List News :=
  (List.insertionSort newsDesc store).take limit

/-- `crud.get_news_by_id`. -/
def get_news_by_id (store : List News) (news_id : Str) : Option News :=
  findById News.id store news_id

/-- Input of the news update operation: the `dict(exclude_unset=True)`
payload of a `schemas.NewsCreate`. -/
structure NewsCreate where
  title : Option Str := none
  content : Option Str := none
  summary : Option Str := none
  imageUrl : Option Str := none
  deriving DecidableEq

/-- The `setattr` loop of `crud.update_news`: every present field of the
payload is applied, absent fields keep their stored values. -/
def applyNewsUpdates (n : News) (u : NewsCreate) : News :=
  { n with
    title := applyField u.title n.title
    content := applyField u.content n.content
    summary := applyField (u.summary.map some) n.summary
    imageUrl := applyField (u.imageUrl.map some) n.imageUrl }

/-- `crud.update_news`. -/
def update_news (store : List News) (news_id : Str) (news : NewsCreate) :
    Option News × List News :=
  updateById News.id applyNewsUpdates store news_id news

/-- `crud.delete_news`. -/
def delete_news (store : List News) (news_id : Str) : Bool × List News :=
  deleteById News.id store news_id

/-! ### Member -/

/-- A persisted `models.Member` row.  `degree` and `status` are guarded
with `or ""` by the grouping code, so they are modelled as nullable. -/
structure Member where
  id : Str
  name : Str
  degree : Option Str
  email : Option Str
  imageUrl : Option Str
  homepage : Option Str
  joinedAt : Str
  status : Option Str
  bio : Option Str
  researchInterests : Option Str
  deriving DecidableEq

/-- The `ORDER BY asc(Member.name)` relation. -/
def memberNameLe (a b : Member) : Prop := a.name ≤ b.name

instance : DecidableRel memberNameLe := fun a b =>
  inferInstanceAs (Decidable (a.name ≤ b.name))

instance : IsTotal Member memberNameLe :=
  ⟨fun a b => le_total a.name b.name⟩

instance : IsTrans Member memberNameLe :=
  ⟨fun _ _ _ hab hbc => le_trans hab hbc⟩

/-- `crud.get_members`: all members ordered ascending by name. -/
def get_members (store : List Member) : List Member :=
  List.insertionSort memberNameLe store

/-- The keys of the `grouped` dict of
`crud.get_members_by_degree_level`, in insertion order. -/
def groupKeys : List Str :=
  ["masters".data, "bachelors".data, "phd".data, "other".data, "alumni".data]

/-- The initial `grouped` dict: every bucket key mapped to an empty
list. -/
def initGrouped : List (Str × List Member) :=
  groupKeys.map (fun k => (k, ([] : List Member)))

/-- The degree part of the classification chain of
`crud.get_members_by_degree_level`, over the already-lowercased degree
`deg`, with the branches in source order (first match wins): an exact
bucket-key degree; then the `{"phd","ph.d","doctor"}` set; then the
`master`/`bachelor` prefix tests; else `other`. -/
def bucketOfDeg (deg : Str) : Str :=
  if deg ∈ groupKeys then deg
  else if deg = "phd".data ∨ deg = "ph.d".data ∨ deg = "doctor".data then "phd".data
  else if "master".data.isPrefixOf deg then "masters".data
  else if "bachelor".data.isPrefixOf deg then "bachelors".data
  else "other".data

/-- The bucket the classification chain of
`crud.get_members_by_degree_level` appends member `m` to: a status of
`alumni` (case-insensitive, null guarded by `or ""`) overrides everything,
otherwise the degree chain `bucketOfDeg` decides. -/
def bucketOf (m : Member) : Str :=
  if pyLower (m.status.getD []) = "alumni".data then "alumni".data
  else bucketOfDeg (pyLower (m.degree.getD []))

/-- `grouped[k].append(m)`: the entry of the dict holding key `k` (keys are
unique in a Python dict, so the first entry) gets `m` appended to its list;
other entries are unchanged. -/
def appendToKey : List (Str × List Member) → Str → Member → List (Str × List Member)
  | [], _, _ => []
  | kv :: rest, k, m =>
      if kv.1 = k then (kv.1, kv.2 ++ [m]) :: rest else kv :: appendToKey rest k m

/-- Dict lookup `g[k]` (first entry with key `k`). -/
def lookupKey {β : Type} : List (Str × β) → Str → Option β
  | [], _ => none
  | kv :: rest, k => if kv.1 = k then some kv.2 else lookupKey rest k

/-- `crud.get_members_by_degree_level`: fetches all members ordered by
name, then appends each to the bucket chosen by the classification
chain. -/
def get_members_by_degree_level (store : List Member) :
    List (Str × List Member) :=
  (List.insertionSort memberNameLe store).foldl
    (fun g m => appendToKey g (bucketOf m) m) initGrouped

/-- Input of the member update operation: the `dict(exclude_unset=True)`
payload of a `schemas.MemberUpdate` (every schema field is optional). -/
structure MemberUpdate where
  name : Option Str := none
  degree : Option Str := none
  email : Option Str := none
  imageUrl : Option Str := none
  homepage : Option Str := none
  joinedAt : Option Str := none
  status : Option Str := none
  bio : Option Str := none
  researchInterests : Option Str := none
  deriving DecidableEq

/-- The `setattr` loop of `crud.update_member`. -/
def applyMemberUpdates (m : Member) (u : MemberUpdate) : Member :=
  { m with
    name := applyField u.name m.name
    degree := applyField (u.degree.map some) m.degree
    email := applyField (u.email.map some) m.email
    imageUrl := applyField (u.imageUrl.map some) m.imageUrl
    homepage := applyField (u.homepage.map some) m.homepage
    joinedAt := applyField u.joinedAt m.joinedAt
    status := applyField (u.status.map some) m.status
    bio := applyField (u.bio.map some) m.bio
    researchInterests := applyField (u.researchInterests.map some) m.researchInterests }

/-- `crud.update_member`. -/
def update_member (store : List Member) (member_id : Str) (member : MemberUpdate) :
    Option Member × List Member :=
  updateById Member.id applyMemberUpdates store member_id member

/-- `crud.delete_member`. -/
def delete_member (store : List Member) (member_id : Str) : Bool × List Member :=
  deleteById Member.id store member_id

/-! ### Research Area -/

/-- A persisted `models.ResearchArea` row (fields of
`schemas.ResearchAreaResponse` that this layer touches). -/
structure ResearchArea where
  id : Str
  name : Str
  description : Option Str
  parentId : Option Str
  imageUrl : Option Str
  order : Option Int
  isActive : Option Bool
  deriving DecidableEq

/-- `crud.get_research_area_by_id`. -/
def get_research_area_by_id (store : List ResearchArea) (area_id : Str) :
    Option ResearchArea :=
  findById ResearchArea.id store area_id

/-- Input of the research-area update operation: the
`dict(exclude_unset=True)` payload of a `schemas.ResearchAreaCreate`. -/
structure ResearchAreaCreate where
  name : Option Str := none
  description : Option Str := none
  parentId : Option Str := none
  imageUrl : Option Str := none
  order : Option Int := none
  isActive : Option Bool := none
  deriving DecidableEq

/-- The `setattr` loop of `crud.update_research_area`. -/
def applyResearchAreaUpdates (a : ResearchArea) (u : ResearchAreaCreate) :
    ResearchArea :=
  { a with
    name := applyField u.name a.name
    description := applyField (u.description.map some) a.description
    parentId := applyField (u.parentId.map some) a.parentId
    imageUrl := applyField (u.imageUrl.map some) a.imageUrl
    order := applyField (u.order.map some) a.order
    isActive := applyField (u.isActive.map some) a.isActive }

/-- `crud.update_research_area`. -/
def update_research_area (store : List ResearchArea) (area_id : Str)
    (area : ResearchAreaCreate) : Option ResearchArea × List ResearchArea :=
  updateById ResearchArea.id applyResearchAreaUpdates store area_id area

/-- `crud.delete_research_area`. -/
def delete_research_area (store : List ResearchArea) (area_id : Str) :
    Bool × List ResearchArea :=
  deleteById ResearchArea.id store area_id

/-! ### Lab Info -/

/-- The sentinel identifier of the singleton `LabInfo` row. -/
def labSettingsKey : Str := "lab_settings".data

/-- A persisted `models.LabInfo` row: the sentinel identifier plus the
`schemas.LabInfoBase` fields; a column never supplied keeps its `none`
default. -/
structure LabInfo where
  id : Str
  labName : Option Str
  principalInvestigator : Option Str
  piTitle : Option Str
  piEmail : Option Str
  piPhone : Option Str
  piPhoto : Option Str
  piBio : Option Str
  description : Option Str
  address : Option Str
  latitude : Option Str
  longitude : Option Str
  building : Option Str
  room : Option Str
  university : Option Str
  department : Option Str
  website : Option Str
  establishedYear : Option Str
  researchFocus : Option Str
  contactEmail : Option Str
  contactPhone : Option Str
  officeHours : Option Str
  deriving DecidableEq

/-- Input of `create_or_update_lab_info`: the `dict(exclude_unset=True)`
payload of a `schemas.LabInfoCreate`. -/
structure LabInfoCreate where
  labName : Option Str := none
  principalInvestigator : Option Str := none
  piTitle : Option Str := none
  piEmail : Option Str := none
  piPhone : Option Str := none
  piPhoto : Option Str := none
  piBio : Option Str := none
  description : Option Str := none
  address : Option Str := none
  latitude : Option Str := none
  longitude : Option Str := none
  building : Option Str := none
  room : Option Str := none
  university : Option Str := none
  department : Option Str := none
  website : Option Str := none
  establishedYear : Option Str := none
  researchFocus : Option Str := none
  contactEmail : Option Str := none
  contactPhone : Option Str := none
  officeHours : Option Str := none
  deriving DecidableEq

/-- `models.LabInfo(id="lab_settings", **lab_info.dict(exclude_unset=True))`:
a fresh row keyed by the sentinel whose columns take the supplied values,
absent columns keeping their defaults. -/
def mkLabInfo (u : LabInfoCreate) : LabInfo :=
  { id := labSettingsKey
    labName := u.labName
    principalInvestigator := u.principalInvestigator
    piTitle := u.piTitle
    piEmail := u.piEmail
    piPhone := u.piPhone
    piPhoto := u.piPhoto
    piBio := u.piBio
    description := u.description
    address := u.address
    latitude := u.latitude
    longitude := u.longitude
    building := u.building
    room := u.room
    university := u.university
    department := u.department
    website := u.website
    establishedYear := u.establishedYear
    researchFocus := u.researchFocus
    contactEmail := u.contactEmail
    contactPhone := u.contactPhone
    officeHours := u.officeHours }

/-- The `setattr` loop of `crud.create_or_update_lab_info` on an existing
row: every present field of the payload is applied. -/
def applyLabInfoUpdates (l : LabInfo) (u : LabInfoCreate) : LabInfo :=
  { l with
    labName := applyField (u.labName.map some) l.labName
    principalInvestigator := applyField (u.principalInvestigator.map some) l.principalInvestigator
    piTitle := applyField (u.piTitle.map some) l.piTitle
    piEmail := applyField (u.piEmail.map some) l.piEmail
    piPhone := applyField (u.piPhone.map some) l.piPhone
    piPhoto := applyField (u.piPhoto.map some) l.piPhoto
    piBio := applyField (u.piBio.map some) l.piBio
    description := applyField (u.description.map some) l.description
    address := applyField (u.address.map some) l.address
    latitude := applyField (u.latitude.map some) l.latitude
    longitude := applyField (u.longitude.map some) l.longitude
    building := applyField (u.building.map some) l.building
    room := applyField (u.room.map some) l.room
    university := applyField (u.university.map some) l.university
    department := applyField (u.department.map some) l.department
    website := applyField (u.website.map some) l.website
    establishedYear := applyField (u.establishedYear.map some) l.establishedYear
    researchFocus := applyField (u.researchFocus.map some) l.researchFocus
    contactEmail := applyField (u.contactEmail.map some) l.contactEmail
    contactPhone := applyField (u.contactPhone.map some) l.contactPhone
    officeHours := applyField (u.officeHours.map some) l.officeHours }

/-- `crud.get_lab_info`: the row keyed by the sentinel, if any. -/
def get_lab_info (store : List LabInfo) : Option LabInfo :=
  findById LabInfo.id store labSettingsKey

/-- `crud.create_or_update_lab_info`: if the sentinel row exists, apply the
present fields of the payload to it; otherwise add a fresh row keyed by the
sentinel.  Returns the refreshed row and the resulting table. -/
def create_or_update_lab_info (store : List LabInfo) (lab_info : LabInfoCreate) :
    LabInfo × List LabInfo :=
  match findById LabInfo.id store labSettingsKey with
  | some db_lab_info =>
      (applyLabInfoUpdates db_lab_info lab_info,
       replaceById LabInfo.id store labSettingsKey
         (applyLabInfoUpdates db_lab_info lab_info))
  | none =>
      (mkLabInfo lab_info, store ++ [mkLabInfo lab_info])

/-- One call against the lab-info table: the read `get_lab_info` (which
leaves the table unchanged) or a `create_or_update_lab_info` with some
input. -/
inductive LabOp : Type where
  | read : LabOp
  | upsert : LabInfoCreate → LabOp
  deriving DecidableEq

/-- The table resulting from one lab-info call. -/
def runLabOp (store : List LabInfo) : LabOp → List LabInfo
  | LabOp.read => store
  | LabOp.upsert input => (create_or_update_lab_info store input).2

/-- The table resulting from a sequence of lab-info calls. -/
def runLabOps (store : List LabInfo) (ops : List LabOp) : List LabInfo :=
  ops.foldl runLabOp store

/-- The LabInfo invariant: at most one row ever exists and every row is
keyed by the sentinel. -/
def LabInfoInv (store : List LabInfo) : Prop :=
  store.length ≤ 1 ∧ ∀ r ∈ store, r.id = labSettingsKey

/-! ### Generic store lemmas -/

theorem findById_eq_none_iff {α : Type} (idOf : α → Str) (l : List α) (i : Str) :
    findById idOf l i = none ↔ ∀ x ∈ l, idOf x ≠ i := by
  induction l with
  | nil => simp [findById]
  | cons x rest ih =>
      by_cases h : idOf x = i
      · simp [findById, h]
      · simp [findById, h, ih]

theorem findById_of_countById_eq_zero {α : Type} (idOf : α → Str)
    (l : List α) (i : Str) (h : countById idOf l i = 0) :
    findById idOf l i = none := by
  rw [findById_eq_none_iff]
  intro x hx
  have := (List.countP_eq_zero.mp h) x hx
  simpa using this

theorem countById_cons_of_eq {α : Type} (idOf : α → Str) (x : α)
    (rest : List α) (i : Str) (h : idOf x = i) :
    countById idOf (x :: rest) i = countById idOf rest i + 1 := by
  simp [countById, List.countP_cons, h]

theorem countById_cons_of_ne {α : Type} (idOf : α → Str) (x : α)
    (rest : List α) (i : Str) (h : idOf x ≠ i) :
    countById idOf (x :: rest) i = countById idOf rest i := by
  simp [countById, List.countP_cons, h]

/-- Deleting the fetched row leaves no row with that identifier, provided
the identifier was unique (a primary key). -/
theorem findById_eraseById {α : Type} (idOf : α → Str) (l : List α) (i : Str)
    (huniq : countById idOf l i ≤ 1) :
    findById idOf (eraseById idOf l i) i = none := by
  induction l with
  | nil => simp [eraseById, findById]
  | cons x rest ih =>
      by_cases h : idOf x = i
      · rw [countById_cons_of_eq idOf x rest i h] at huniq
        have hzero : countById idOf rest i = 0 := by omega
        simpa [eraseById, h] using findById_of_countById_eq_zero idOf rest i hzero
      · rw [countById_cons_of_ne idOf x rest i h] at huniq
        simpa [eraseById, findById, h] using ih huniq

/-- Writing back the very row that was fetched leaves the table
unchanged. -/
theorem replaceById_of_findById {α : Type} (idOf : α → Str) (l : List α)
    (i : Str) (x : α) (h : findById idOf l i = some x) :
    replaceById idOf l i x = l := by
  induction l with
  | nil => simp [findById] at h
  | cons y rest ih =>
      by_cases hy : idOf y = i
      · simp only [findById, hy, if_true, Option.some.injEq] at h
        subst h
        simp [replaceById, hy]
      · simp only [findById, hy, if_false] at h
        simp [replaceById, hy, ih h]

theorem findById_replaceById {α : Type} (idOf : α → Str) (l : List α)
    (i : Str) (x y : α) (hfound : findById idOf l i = some x)
    (hy : idOf y = i) :
    findById idOf (replaceById idOf l i y) i = some y := by
  induction l with
  | nil => simp [findById] at hfound
  | cons z rest ih =>
      by_cases hz : idOf z = i
      · simp [replaceById, findById, hz, hy]
      · simp only [findById, hz, if_false] at hfound
        simp [replaceById, findById, hz, ih hfound]

theorem length_replaceById {α : Type} (idOf : α → Str) (l : List α)
    (i : Str) (y : α) :
    (replaceById idOf l i y).length = l.length := by
  induction l with
  | nil => rfl
  | cons z rest ih =>
      by_cases hz : idOf z = i <;> simp [replaceById, hz, ih]

theorem mem_replaceById {α : Type} (idOf : α → Str) (l : List α) (i : Str)
    (y z : α) (hz : z ∈ replaceById idOf l i y) : z = y ∨ z ∈ l := by
  induction l with
  | nil => simp [replaceById] at hz
  | cons w rest ih =>
      by_cases hw : idOf w = i
      · simp only [replaceById, hw, if_true, List.mem_cons] at hz
        rcases hz with hz | hz
        · exact Or.inl hz
        · exact Or.inr (List.mem_cons_of_mem w hz)
      · simp only [replaceById, hw, if_false, List.mem_cons] at hz
        rcases hz with hz | hz
        · exact Or.inr (hz ▸ List.mem_cons_self w rest)
        · rcases ih hz with h | h
          · exact Or.inl h
          · exact Or.inr (List.mem_cons_of_mem w h)

theorem findById_append_of_none {α : Type} (idOf : α → Str) (l l2 : List α)
    (i : Str) (h : findById idOf l i = none) :
    findById idOf (l ++ l2) i = findById idOf l2 i := by
  induction l with
  | nil => rfl
  | cons x rest ih =>
      by_cases hx : idOf x = i
      · simp [findById, hx] at h
      · simp only [findById, hx, if_false] at h
        simpa [findById, hx] using ih h

/-! ### Lemmas about the member grouping -/

/-- The key list of a grouped dict. -/
def keysOf {β : Type} (g : List (Str × β)) : List Str := g.map Prod.fst

/-- The concatenation of all bucket lists of a grouped dict. -/
def joinVals (g : List (Str × List Member)) : List Member :=
  (g.map Prod.snd).flatten

theorem idOf_of_findById {α : Type} (idOf : α → Str) (l : List α) (i : Str)
    (x : α) (h : findById idOf l i = some x) : idOf x = i := by
  induction l with
  | nil => simp [findById] at h
  | cons y rest ih =>
      by_cases hy : idOf y = i
      · simp only [findById, hy, if_true, Option.some.injEq] at h
        exact h ▸ hy
      · simp only [findById, hy, if_false] at h
        exact ih h

theorem keysOf_appendToKey (g : List (Str × List Member)) (b : Str) (m : Member) :
    keysOf (appendToKey g b m) = keysOf g := by
  induction g with
  | nil => rfl
  | cons kv rest ih =>
      by_cases hb : kv.1 = b
      · simp [appendToKey, keysOf, hb]
      · simp only [appendToKey, if_neg hb, keysOf, List.map_cons] at ih ⊢
        rw [ih]

theorem lookupKey_appendToKey (g : List (Str × List Member)) (b k : Str) (m : Member) :
    lookupKey (appendToKey g b m) k
      = (lookupKey g k).map (fun cur => if b = k then cur ++ [m] else cur) := by
  induction g with
  | nil => rfl
  | cons kv rest ih =>
      simp only [appendToKey]
      by_cases hb : kv.1 = b
      · rw [if_pos hb]
        by_cases hk : kv.1 = k
        · have hbk : b = k := hb.symm.trans hk
          simp [lookupKey, hk, hbk]
        · have hkb : ¬b = k := fun h => hk (hb.trans h)
          cases hrest : lookupKey rest k <;> simp [lookupKey, hk, hkb, hrest]
      · rw [if_neg hb]
        by_cases hk : kv.1 = k
        · have hkb : ¬b = k := fun h => hb (hk.trans h.symm)
          simp [lookupKey, hk, hkb]
        · simp only [lookupKey, if_neg hk]
          exact ih

theorem joinVals_appendToKey (g : List (Str × List Member)) (b : Str) (m : Member)
    (hmem : b ∈ keysOf g) :
    (joinVals (appendToKey g b m)).Perm (m :: joinVals g) := by
  induction g with
  | nil => simp [keysOf] at hmem
  | cons kv rest ih =>
      by_cases hb : kv.1 = b
      · simp only [appendToKey, if_pos hb, joinVals, List.map_cons, List.flatten_cons,
          List.append_assoc]
        exact List.perm_middle
      · have hmem' : b ∈ keysOf rest := by
          rcases List.mem_cons.mp hmem with h | h
          · exact absurd h.symm hb
          · exact h
        simp only [appendToKey, if_neg hb, joinVals, List.map_cons, List.flatten_cons]
        exact ((ih hmem').append_left kv.2).trans List.perm_middle

theorem lookupKey_eq_none_of_not_mem (g : List (Str × List Member)) (k : Str)
    (h : k ∉ keysOf g) : lookupKey g k = none := by
  induction g with
  | nil => rfl
  | cons kv rest ih =>
      rw [keysOf, List.map_cons] at h
      have h1 : ¬kv.1 = k := fun hk => h (hk ▸ List.mem_cons_self _ _)
      have h2 : k ∉ keysOf rest := fun hk => h (List.mem_cons_of_mem _ hk)
      simp only [lookupKey, if_neg h1]
      exact ih h2

/-- The classification chain always lands in one of the five bucket
keys. -/
theorem bucketOfDeg_mem (deg : Str) : bucketOfDeg deg ∈ groupKeys := by
  unfold bucketOfDeg
  split
  · assumption
  · split
    · decide
    · split
      · decide
      · split
        · decide
        · decide

theorem bucketOf_mem (m : Member) : bucketOf m ∈ groupKeys := by
  unfold bucketOf
  split
  · decide
  · exact bucketOfDeg_mem _

/-- Folding the grouping loop over `l` appends, under each key `k`, exactly
the members of `l` classified to `k`, in traversal order. -/
theorem lookupKey_foldGroup (l : List Member) :
    ∀ (g : List (Str × List Member)) (k : Str),
      lookupKey (l.foldl (fun g m => appendToKey g (bucketOf m) m) g) k
        = (lookupKey g k).map
            (fun cur => cur ++ l.filter (fun m => decide (bucketOf m = k))) := by
  induction l with
  | nil =>
      intro g k
      cases h : lookupKey g k <;> simp [h]
  | cons m rest ih =>
      intro g k
      rw [List.foldl_cons, ih, lookupKey_appendToKey, Option.map_map]
      cases h : lookupKey g k
      · rfl
      · by_cases hb : bucketOf m = k <;>
          simp [h, hb, Function.comp, List.filter_cons]

/-- Folding the grouping loop over `l` adds exactly the members of `l` to
the buckets, provided every classified key is present in the dict. -/
theorem joinVals_foldGroup (l : List Member) :
    ∀ (g : List (Str × List Member)), keysOf g = groupKeys →
      (joinVals (l.foldl (fun g m => appendToKey g (bucketOf m) m) g)).Perm
        (joinVals g ++ l) := by
  induction l with
  | nil => intro g _; simp
  | cons m rest ih =>
      intro g hkeys
      rw [List.foldl_cons]
      have hkeys' : keysOf (appendToKey g (bucketOf m) m) = groupKeys := by
        rw [keysOf_appendToKey]; exact hkeys
      have hmem : bucketOf m ∈ keysOf g := by
        rw [hkeys]; exact bucketOf_mem m
      exact ((ih _ hkeys').trans
        ((joinVals_appendToKey g (bucketOf m) m hmem).append_right rest)).trans
        List.perm_middle.symm

theorem keysOf_foldGroup (l : List Member) :
    ∀ g : List (Str × List Member),
      keysOf (l.foldl (fun g m => appendToKey g (bucketOf m) m) g) = keysOf g := by
  induction l with
  | nil => intro g; rfl
  | cons m rest ih =>
      intro g
      rw [List.foldl_cons, ih, keysOf_appendToKey]

/-! ### Lemmas about the author creation loop -/

theorem mkAuthors_get? (pid : Str) :
    ∀ (as : List AuthorCreate) (k i : Nat),
      (mkAuthors pid k as).get? i
        = (as.get? i).map (fun a =>
            { name := a.name
              homepage := a.homepage
              displayOrder := some (a.order.getD ((k + i : Nat) : Int))
              publicationId := pid })
  | [], _, i => by simp [mkAuthors]
  | a :: rest, k, 0 => by simp [mkAuthors]
  | a :: rest, k, Nat.succ i => by
      have h : k + 1 + i = k + (i + 1) := by omega
      simp only [mkAuthors, List.get?_cons_succ]
      rw [mkAuthors_get? pid rest (k + 1) i, h]

theorem mkAuthors_length (pid : Str) :
    ∀ (as : List AuthorCreate) (k : Nat), (mkAuthors pid k as).length = as.length
  | [], _ => rfl
  | _ :: rest, k => by
      simp [mkAuthors, mkAuthors_length pid rest (k + 1)]

/-! ### Lemmas about the update/delete shape -/

theorem updateById_of_none {α β : Type} (idOf : α → Str) (app : α → β → α)
    (store : List α) (i : Str) (patch : β)
    (h : findById idOf store i = none) :
    updateById idOf app store i patch = (none, store) := by
  simp [updateById, h]

theorem deleteById_of_none {α : Type} (idOf : α → Str) (store : List α)
    (i : Str) (h : findById idOf store i = none) :
    deleteById idOf store i = (false, store) := by
  simp [deleteById, h]

theorem updateById_found_fix {α β : Type} (idOf : α → Str) (app : α → β → α)
    (store : List α) (i : Str) (patch : β) (x : α)
    (hfind : findById idOf store i = some x) (hfix : app x patch = x) :
    updateById idOf app store i patch = (some x, store) := by
  simp [updateById, hfind, hfix, replaceById_of_findById idOf store i x hfind]

/-- The delete-twice contract: the first call deletes and returns `True`,
the second finds nothing and returns `False`, assuming the identifier
column is a primary key (at most one row carries it). -/
theorem deleteById_twice {α : Type} (idOf : α → Str) (store : List α)
    (i : Str) (x : α) (hfind : findById idOf store i = some x)
    (huniq : countById idOf store i ≤ 1) :
    (deleteById idOf store i).1 = true ∧
      (deleteById idOf (deleteById idOf store i).2 i).1 = false := by
  have h2 : (deleteById idOf store i).2 = eraseById idOf store i := by
    simp [deleteById, hfind]
  refine ⟨by simp [deleteById, hfind], ?_⟩
  rw [h2]
  simp [deleteById, findById_eraseById idOf store i huniq]

/-! ### Lemmas about the LabInfo upsert -/

theorem applyLabInfoUpdates_id (l : LabInfo) (u : LabInfoCreate) :
    (applyLabInfoUpdates l u).id = l.id := rfl

theorem mkLabInfo_id (u : LabInfoCreate) : (mkLabInfo u).id = labSettingsKey := rfl

theorem applyLabInfoUpdates_mk (u : LabInfoCreate) :
    applyLabInfoUpdates (mkLabInfo u) u = mkLabInfo u := by
  simp [applyLabInfoUpdates, mkLabInfo, applyField_map_some]

theorem applyLabInfoUpdates_idem (l : LabInfo) (u : LabInfoCreate) :
    applyLabInfoUpdates (applyLabInfoUpdates l u) u = applyLabInfoUpdates l u := by
  simp [applyLabInfoUpdates, applyField_idem]

/-- After one upsert, the sentinel row is present and is exactly the row
the call returned. -/
theorem find_after_upsert (store : List LabInfo) (input : LabInfoCreate) :
    findById LabInfo.id (create_or_update_lab_info store input).2 labSettingsKey
      = some (create_or_update_lab_info store input).1 := by
  cases h : findById LabInfo.id store labSettingsKey with
  | none =>
      simp only [create_or_update_lab_info, h]
      rw [findById_append_of_none LabInfo.id store _ _ h]
      simp [findById, mkLabInfo_id]
  | some x =>
      simp only [create_or_update_lab_info, h]
      exact findById_replaceById LabInfo.id store labSettingsKey x _ h
        ((applyLabInfoUpdates_id x input).trans
          (idOf_of_findById LabInfo.id store labSettingsKey x h))

theorem lab_store_empty_of_none (s : List LabInfo) (hinv : LabInfoInv s)
    (hn : findById LabInfo.id s labSettingsKey = none) : s = [] := by
  cases s with
  | nil => rfl
  | cons r rest =>
      have hid : r.id = labSettingsKey := hinv.2 r (List.mem_cons_self _ _)
      simp [findById, hid] at hn

/-- One upsert starting from an invariant store keeps the invariant and
leaves exactly one row. -/
theorem labInfoInv_upsert (s : List LabInfo) (input : LabInfoCreate)
    (hinv : LabInfoInv s) :
    LabInfoInv (create_or_update_lab_info s input).2 ∧
      (create_or_update_lab_info s input).2.length = 1 := by
  cases h : findById LabInfo.id s labSettingsKey with
  | none =>
      have hs : s = [] := lab_store_empty_of_none s hinv h
      subst hs
      simp [create_or_update_lab_info, h, LabInfoInv, mkLabInfo_id]
  | some x =>
      simp only [create_or_update_lab_info, h]
      have hxid : x.id = labSettingsKey := idOf_of_findById _ _ _ _ h
      have hne : s ≠ [] := by
        intro hs
        rw [hs] at h
        simp [findById] at h
      have hlen1 : 1 ≤ s.length := List.length_pos.mpr hne
      refine ⟨⟨?_, ?_⟩, ?_⟩
      · rw [length_replaceById]; exact hinv.1
      · intro r hr
        rcases mem_replaceById LabInfo.id s labSettingsKey _ r hr with h1 | h1
        · rw [h1, applyLabInfoUpdates_id, hxid]
        · exact hinv.2 r h1
      · rw [length_replaceById]
        have hle := hinv.1
        omega

/-! ### Concrete sample rows used by the example conjuncts and witnesses -/

/-- The publication payload `{order: 2}` (plus its required fields) of the
spec's worked example. -/
def samplePublicationCreate : PublicationCreate :=
  { title := some "T".data
    year := some 2024
    type := some "journal".data
    abstract := some "Abs".data
    order := some 2 }

/-- The author `{name:"A"}` of the spec's worked example (no `order`). -/
def sampleAuthorA : AuthorCreate := { name := "A".data }

/-- The author `{name:"B", order: 5}` of the spec's worked example. -/
def sampleAuthorB : AuthorCreate := { name := "B".data, order := some 5 }

/-! ### C1 -/

/-- C1.  For every `create_publication` call, the persisted publication's
`displayOrder` equals the payload's `order` field when present and `0`
otherwise, and the persisted author row at zero-based position `i` has
`displayOrder` equal to that author's own `order` field when present and
`i` otherwise (with one persisted author row per input author).  In
particular, for the payload `{order: 2}` with authors
`[{name:"A"}, {name:"B", order: 5}]` the display orders are `2`, `0` and
`5`. -/
theorem create_publication_display_orders :
    (∀ (pc : PublicationCreate) (aid : Str) (authors : List AuthorCreate) (pid : Str),
      (create_publication pc aid authors pid).1.displayOrder
        = some (match pc.order with | some v => v | none => 0))
  ∧ (∀ (pc : PublicationCreate) (aid : Str) (authors : List AuthorCreate) (pid : Str)
        (i : Nat),
      (create_publication pc aid authors pid).2.get? i
        = (authors.get? i).map (fun a =>
            { name := a.name
              homepage := a.homepage
              displayOrder :=
                some (match a.order with | some v => v | none => (i : Int))
              publicationId := pid }))
  ∧ (∀ (pc : PublicationCreate) (aid : Str) (authors : List AuthorCreate) (pid : Str),
      (create_publication pc aid authors pid).2.length = authors.length)
  ∧ ((create_publication samplePublicationCreate "u1".data
        [sampleAuthorA, sampleAuthorB] "p1".data).1.displayOrder = some 2
    ∧ (create_publication samplePublicationCreate "u1".data
        [sampleAuthorA, sampleAuthorB] "p1".data).2.map Author.displayOrder
        = [some 0, some 5]) := by
  refine ⟨?_, ?_, ?_, ?_, ?_⟩
  · intro pc aid authors pid
    cases horder : pc.order <;> simp [create_publication, horder, Option.getD]
  · intro pc aid authors pid i
    show (mkAuthors pid 0 authors).get? i = _
    rw [mkAuthors_get?]
    cases hai : authors.get? i with
    | none => rfl
    | some a =>
        cases ho : a.order <;> simp [ho, Option.getD]
  · intro pc aid authors pid
    exact mkAuthors_length pid authors 0
  · decide
  · decide

/-! ### C7 -/

/-- C7.  `create_user` persists every new user with `isApproved = false`
and `isAdmin = false`, whatever the input and password hash; hence any two
creation calls yield users with identical approval/admin flags. -/
theorem create_user_flags :
    (∀ (user : UserCreate) (hp newId : Str),
      (create_user user hp newId).isApproved = false
        ∧ (create_user user hp newId).isAdmin = false
        ∧ (create_user user hp newId).email = user.email
        ∧ (create_user user hp newId).firstName = user.firstName
        ∧ (create_user user hp newId).lastName = user.lastName
        ∧ (create_user user hp newId).hashed_password = hp)
  ∧ (∀ (u1 u2 : UserCreate) (hp1 hp2 id1 id2 : Str),
      (create_user u1 hp1 id1).isApproved = (create_user u2 hp2 id2).isApproved
        ∧ (create_user u1 hp1 id1).isAdmin = (create_user u2 hp2 id2).isAdmin) := by
  exact ⟨fun user hp newId => ⟨rfl, rfl, rfl, rfl, rfl, rfl⟩,
    fun u1 u2 hp1 hp2 id1 id2 => ⟨rfl, rfl⟩⟩

/-! ### C9 -/

/-- C9.  `create_author` reads only `name`, `homepage` and the publication
id: the persisted row's `displayOrder` is the input-independent column
default, so two inputs differing only in their `order` field persist
identical author rows — unlike the author handling inside
`create_publication`, where `order = 5` and `order = 7` yield different
persisted display orders. -/
theorem create_author_ignores_order :
    (∀ (a1 a2 : AuthorCreate) (pid : Str), a1.name = a2.name →
      a1.homepage = a2.homepage → create_author a1 pid = create_author a2 pid)
  ∧ (∀ (a : AuthorCreate) (pid : Str),
      (create_author a pid).name = a.name
        ∧ (create_author a pid).homepage = a.homepage
        ∧ (create_author a pid).publicationId = pid
        ∧ (create_author a pid).displayOrder = authorDisplayOrderDefault)
  ∧ (create_author { name := "A".data, order := some 5 } "p1".data
      = create_author { name := "A".data, order := some 7 } "p1".data)
  ∧ ((create_publication samplePublicationCreate "u1".data
        [{ name := "A".data, order := some 5 }] "p1".data).2
      ≠ (create_publication samplePublicationCreate "u1".data
          [{ name := "A".data, order := some 7 }] "p1".data).2) := by
  refine ⟨?_, ?_, ?_, ?_⟩
  · intro a1 a2 pid hn hh
    simp [create_author, hn, hh]
  · intro a pid
    exact ⟨rfl, rfl, rfl, rfl⟩
  · decide
  · decide

/-- Witness for C9: the independence statement applied to the two concrete
inputs that differ only in `order`. -/
theorem create_author_ignores_order_witness :
    create_author { name := "A".data, order := some 5 } "p1".data
      = create_author { name := "A".data, order := some 7 } "p1".data :=
  create_author_ignores_order.1 { name := "A".data, order := some 5 }
    { name := "A".data, order := some 7 } "p1".data rfl rfl

/-! ### C8 -/

/-- Oldest of the three sample news rows. -/
def sampleNews1 : News :=
  { id := "n1".data, title := "t1".data, content := "c1".data,
    summary := none, imageUrl := none, publishedAt := 1,
    authorId := "u".data, isPublished := true }

/-- Newest of the three sample news rows. -/
def sampleNews2 : News :=
  { id := "n2".data, title := "t2".data, content := "c2".data,
    summary := none, imageUrl := none, publishedAt := 3,
    authorId := "u".data, isPublished := true }

/-- Middle of the three sample news rows. -/
def sampleNews3 : News :=
  { id := "n3".data, title := "t3".data, content := "c3".data,
    summary := none, imageUrl := none, publishedAt := 2,
    authorId := "u".data, isPublished := true }

/-- C8.  `get_all_news` returns all news rows ordered descending by
`publishedAt`, and `get_recent_news limit` is the `limit`-prefix of that
very ordering; over three rows with distinct `publishedAt` values,
`get_recent_news _ 2` returns exactly the two most recent, newest
first. -/
theorem news_listing_order :
    (∀ store : List News, List.Sorted newsDesc (get_all_news store))
  ∧ (∀ store : List News, (get_all_news store).Perm store)
  ∧ (∀ (store : List News) (limit : Nat),
      get_recent_news store limit = (get_all_news store).take limit)
  ∧ (∀ (store : List News) (limit : Nat),
      (get_recent_news store limit).length = min limit store.length)
  ∧ (get_all_news [sampleNews1, sampleNews2, sampleNews3]
      = [sampleNews2, sampleNews3, sampleNews1]
    ∧ get_recent_news [sampleNews1, sampleNews2, sampleNews3] 2
      = [sampleNews2, sampleNews3]) := by
  refine ⟨?_, ?_, ?_, ?_, ?_, ?_⟩
  · intro store
    exact List.sorted_insertionSort newsDesc store
  · intro store
    exact List.perm_insertionSort newsDesc store
  · intro store limit
    rfl
  · intro store limit
    simp [get_recent_news, List.length_take, List.length_insertionSort]
  · decide
  · decide

/-! ### C2 and C10 -/

/-- The member `{name:"Amy", degree:"PhD", status:"current"}` of the
spec's worked example. -/
def amy : Member :=
  { id := "m1".data, name := "Amy".data, degree := some "PhD".data,
    email := none, imageUrl := none, homepage := none,
    joinedAt := "2021".data, status := some "current".data,
    bio := none, researchInterests := none }

/-- The member `{name:"Bo", degree:"Master of Science", status:"alumni"}`
of the spec's worked example. -/
def bo : Member :=
  { id := "m2".data, name := "Bo".data, degree := some "Master of Science".data,
    email := none, imageUrl := none, homepage := none,
    joinedAt := "2019".data, status := some "alumni".data,
    bio := none, researchInterests := none }

/-- The member `{name:"Cy", degree:"Undergraduate", status:"current"}` of
the spec's worked example. -/
def cy : Member :=
  { id := "m3".data, name := "Cy".data, degree := some "Undergraduate".data,
    email := none, imageUrl := none, homepage := none,
    joinedAt := "2023".data, status := some "current".data,
    bio := none, researchInterests := none }

theorem lookupKey_initGrouped (k : Str) (hk : k ∈ groupKeys) :
    lookupKey initGrouped k = some [] := by
  simp only [groupKeys, List.mem_cons, List.not_mem_nil, or_false] at hk
  rcases hk with rfl | rfl | rfl | rfl | rfl <;> decide

/-- Each bucket of the grouped result holds exactly the members of the
name-ordered fetch classified to its key, in fetch order. -/
theorem lookupKey_grouped_eq_filter (store : List Member) (k : Str)
    (hk : k ∈ groupKeys) :
    lookupKey (get_members_by_degree_level store) k
      = some ((get_members store).filter (fun m => decide (bucketOf m = k))) := by
  show lookupKey ((List.insertionSort memberNameLe store).foldl
    (fun g m => appendToKey g (bucketOf m) m) initGrouped) k = _
  rw [lookupKey_foldGroup, lookupKey_initGrouped k hk]
  rfl

theorem keysOf_grouped (store : List Member) :
    keysOf (get_members_by_degree_level store) = groupKeys := by
  show keysOf ((List.insertionSort memberNameLe store).foldl
    (fun g m => appendToKey g (bucketOf m) m) initGrouped) = groupKeys
  rw [keysOf_foldGroup]
  decide

/-- C2.  The grouping classifies every member by the documented
precedence, first match wins: (1) status `alumni` (case-insensitive) wins
regardless of degree; (2) else a lowercased degree that is literally one
of the five bucket keys lands in that bucket; (3) else one of
`phd`/`ph.d`/`doctor` lands in `phd`; (4) else a `master` prefix lands in
`masters`; (5) else a `bachelor` prefix lands in `bachelors`; (6) else
`other` — in particular an empty/null degree with non-alumni status lands
in `other`.  Every bucket holds exactly the members classified to it, in
the name-ascending order of the initial fetch.  On the worked example, Bo
is an alumnus, Amy lands in `phd` and Cy in `other`. -/
theorem members_degree_classification :
    (∀ m : Member, pyLower (m.status.getD []) = "alumni".data →
      bucketOf m = "alumni".data)
  ∧ (∀ m : Member, pyLower (m.status.getD []) ≠ "alumni".data →
      pyLower (m.degree.getD []) ∈ groupKeys →
      bucketOf m = pyLower (m.degree.getD []))
  ∧ (∀ m : Member, pyLower (m.status.getD []) ≠ "alumni".data →
      pyLower (m.degree.getD []) ∉ groupKeys →
      (pyLower (m.degree.getD []) = "phd".data
        ∨ pyLower (m.degree.getD []) = "ph.d".data
        ∨ pyLower (m.degree.getD []) = "doctor".data) →
      bucketOf m = "phd".data)
  ∧ (∀ m : Member, pyLower (m.status.getD []) ≠ "alumni".data →
      pyLower (m.degree.getD []) ∉ groupKeys →
      ¬(pyLower (m.degree.getD []) = "phd".data
        ∨ pyLower (m.degree.getD []) = "ph.d".data
        ∨ pyLower (m.degree.getD []) = "doctor".data) →
      "master".data.isPrefixOf (pyLower (m.degree.getD [])) = true →
      bucketOf m = "masters".data)
  ∧ (∀ m : Member, pyLower (m.status.getD []) ≠ "alumni".data →
      pyLower (m.degree.getD []) ∉ groupKeys →
      ¬(pyLower (m.degree.getD []) = "phd".data
        ∨ pyLower (m.degree.getD []) = "ph.d".data
        ∨ pyLower (m.degree.getD []) = "doctor".data) →
      "master".data.isPrefixOf (pyLower (m.degree.getD [])) = false →
      "bachelor".data.isPrefixOf (pyLower (m.degree.getD [])) = true →
      bucketOf m = "bachelors".data)
  ∧ (∀ m : Member, pyLower (m.status.getD []) ≠ "alumni".data →
      pyLower (m.degree.getD []) ∉ groupKeys →
      ¬(pyLower (m.degree.getD []) = "phd".data
        ∨ pyLower (m.degree.getD []) = "ph.d".data
        ∨ pyLower (m.degree.getD []) = "doctor".data) →
      "master".data.isPrefixOf (pyLower (m.degree.getD [])) = false →
      "bachelor".data.isPrefixOf (pyLower (m.degree.getD [])) = false →
      bucketOf m = "other".data)
  ∧ (∀ m : Member, pyLower (m.status.getD []) ≠ "alumni".data →
      (m.degree = none ∨ m.degree = some []) →
      bucketOf m = "other".data)
  ∧ (∀ (store : List Member) (k : Str), k ∈ groupKeys →
      lookupKey (get_members_by_degree_level store) k
        = some ((get_members store).filter (fun m => decide (bucketOf m = k))))
  ∧ (∀ (store : List Member) (k : Str) (bucket : List Member),
      lookupKey (get_members_by_degree_level store) k = some bucket →
      List.Sorted memberNameLe bucket)
  ∧ (lookupKey (get_members_by_degree_level [amy, bo, cy]) "alumni".data
        = some [bo]
    ∧ lookupKey (get_members_by_degree_level [amy, bo, cy]) "phd".data
        = some [amy]
    ∧ lookupKey (get_members_by_degree_level [amy, bo, cy]) "other".data
        = some [cy]
    ∧ lookupKey (get_members_by_degree_level [amy, bo, cy]) "masters".data
        = some []
    ∧ lookupKey (get_members_by_degree_level [amy, bo, cy]) "bachelors".data
        = some []) := by
  refine ⟨?_, ?_, ?_, ?_, ?_, ?_, ?_, ?_, ?_, ?_⟩
  · intro m hs
    simp [bucketOf, hs]
  · intro m hs hk
    simp [bucketOf, bucketOfDeg, hs, hk]
  · intro m hs hk hphd
    simp [bucketOf, bucketOfDeg, hs, hk, hphd]
  · intro m hs hk hphd hm
    simp [bucketOf, bucketOfDeg, hs, hk, hphd, hm]
  · intro m hs hk hphd hm hb
    simp [bucketOf, bucketOfDeg, hs, hk, hphd, hm, hb]
  · intro m hs hk hphd hm hb
    simp [bucketOf, bucketOfDeg, hs, hk, hphd, hm, hb]
  · intro m hs hdeg
    rcases hdeg with h | h <;> simp only [bucketOf, if_neg hs, h] <;> decide
  · exact fun store k hk => lookupKey_grouped_eq_filter store k hk
  · intro store k bucket hb
    by_cases hk : k ∈ groupKeys
    · rw [lookupKey_grouped_eq_filter store k hk] at hb
      have hsorted : List.Sorted memberNameLe (get_members store) :=
        List.sorted_insertionSort memberNameLe store
      have hsub : ((get_members store).filter
          (fun m => decide (bucketOf m = k))).Sublist (get_members store) :=
        List.filter_sublist _
      cases hb
      exact List.Pairwise.sublist hsub hsorted
    · rw [lookupKey_eq_none_of_not_mem _ k
        (by rw [keysOf_grouped]; exact hk)] at hb
      cases hb
  · exact ⟨by decide, by decide, by decide, by decide, by decide⟩

/-- Witness for C2: the precedence rules applied to the worked example's
three members (alumni status wins for Bo, exact key `phd` for Amy, the
fall-through case for Cy). -/
theorem members_degree_classification_witness :
    bucketOf bo = "alumni".data
  ∧ bucketOf amy = "phd".data
  ∧ bucketOf cy = "other".data :=
  ⟨members_degree_classification.1 bo (by decide),
   members_degree_classification.2.1 amy (by decide) (by decide),
   members_degree_classification.2.2.2.2.2.1 cy (by decide) (by decide)
     (by decide) (by decide) (by decide)⟩

/-- C10.  The grouped result always has exactly the five bucket keys, in
order, and the concatenation of the five buckets is a permutation of the
member table: every member lands in exactly one bucket, none dropped or
duplicated.  On the empty table every bucket is present and empty. -/
theorem members_grouping_partition :
    (∀ store : List Member,
      keysOf (get_members_by_degree_level store) = groupKeys)
  ∧ (∀ store : List Member,
      (joinVals (get_members_by_degree_level store)).Perm store)
  ∧ (get_members_by_degree_level [] = initGrouped
    ∧ initGrouped
        = [("masters".data, []), ("bachelors".data, []), ("phd".data, []),
           ("other".data, []), ("alumni".data, [])]) := by
  refine ⟨?_, ?_, ?_, ?_⟩
  · exact keysOf_grouped
  · intro store
    have h1 := joinVals_foldGroup (List.insertionSort memberNameLe store)
      initGrouped (by decide)
    have h2 : joinVals initGrouped ++ List.insertionSort memberNameLe store
        = List.insertionSort memberNameLe store := rfl
    rw [h2] at h1
    exact h1.trans (List.perm_insertionSort memberNameLe store)
  · decide
  · decide

/-! ### C3 -/

/-- C3.  On a non-existent id no operation raises (all are total functions
returning in-band absence): single-entity reads and partial updates return
`none` and leave the store unchanged, deletes return `false`; and on an
existing id, deleting twice returns `true` then `false` (the id column
being a primary key, it occurs at most once). -/
theorem not_found_and_double_delete :
    (∀ (store : List News) (i : Str), findById News.id store i = none →
      get_news_by_id store i = none
      ∧ (∀ patch : NewsCreate, update_news store i patch = (none, store))
      ∧ delete_news store i = (false, store))
  ∧ (∀ (store : List Publication) (i : Str), findById Publication.id store i = none →
      (∀ patch : PublicationCreate, update_publication store i patch = (none, store))
      ∧ delete_publication store i = (false, store))
  ∧ (∀ (store : List Member) (i : Str), findById Member.id store i = none →
      (∀ patch : MemberUpdate, update_member store i patch = (none, store))
      ∧ delete_member store i = (false, store))
  ∧ (∀ (store : List ResearchArea) (i : Str), findById ResearchArea.id store i = none →
      get_research_area_by_id store i = none
      ∧ (∀ patch : ResearchAreaCreate, update_research_area store i patch = (none, store))
      ∧ delete_research_area store i = (false, store))
  ∧ (∀ (store : List User) (i : Str), findById User.id store i = none →
      approve_user store i = (none, store))
  ∧ (∀ (store : List News) (i : Str) (x : News),
      findById News.id store i = some x → countById News.id store i ≤ 1 →
      (delete_news store i).1 = true
      ∧ (delete_news (delete_news store i).2 i).1 = false)
  ∧ (∀ (store : List Publication) (i : Str) (x : Publication),
      findById Publication.id store i = some x →
      countById Publication.id store i ≤ 1 →
      (delete_publication store i).1 = true
      ∧ (delete_publication (delete_publication store i).2 i).1 = false)
  ∧ (∀ (store : List Member) (i : Str) (x : Member),
      findById Member.id store i = some x → countById Member.id store i ≤ 1 →
      (delete_member store i).1 = true
      ∧ (delete_member (delete_member store i).2 i).1 = false)
  ∧ (∀ (store : List ResearchArea) (i : Str) (x : ResearchArea),
      findById ResearchArea.id store i = some x →
      countById ResearchArea.id store i ≤ 1 →
      (delete_research_area store i).1 = true
      ∧ (delete_research_area (delete_research_area store i).2 i).1 = false) := by
  refine ⟨?_, ?_, ?_, ?_, ?_, ?_, ?_, ?_, ?_⟩
  · intro store i h
    exact ⟨h, fun patch => updateById_of_none _ _ store i patch h,
      deleteById_of_none _ store i h⟩
  · intro store i h
    exact ⟨fun patch => updateById_of_none _ _ store i patch h,
      deleteById_of_none _ store i h⟩
  · intro store i h
    exact ⟨fun patch => updateById_of_none _ _ store i patch h,
      deleteById_of_none _ store i h⟩
  · intro store i h
    exact ⟨h, fun patch => updateById_of_none _ _ store i patch h,
      deleteById_of_none _ store i h⟩
  · intro store i h
    exact updateById_of_none _ _ store i () h
  · intro store i x hf hu
    exact deleteById_twice News.id store i x hf hu
  · intro store i x hf hu
    exact deleteById_twice Publication.id store i x hf hu
  · intro store i x hf hu
    exact deleteById_twice Member.id store i x hf hu
  · intro store i x hf hu
    exact deleteById_twice ResearchArea.id store i x hf hu

/-- Witness for C3: the not-found contract on an empty news table and the
delete-twice contract on a one-row news table. -/
theorem not_found_and_double_delete_witness :
    get_news_by_id [] "x".data = none
  ∧ (delete_news [sampleNews1] "n1".data).1 = true
  ∧ (delete_news (delete_news [sampleNews1] "n1".data).2 "n1".data).1 = false :=
  ⟨(not_found_and_double_delete.1 [] "x".data rfl).1,
   (not_found_and_double_delete.2.2.2.2.2.1 [sampleNews1] "n1".data sampleNews1
     (by decide) (by decide)).1,
   (not_found_and_double_delete.2.2.2.2.2.1 [sampleNews1] "n1".data sampleNews1
     (by decide) (by decide)).2⟩

/-! ### C4 -/

theorem applyPublicationUpdates_empty (p : Publication) :
    applyPublicationUpdates p {} = p := rfl

theorem applyNewsUpdates_empty (n : News) : applyNewsUpdates n {} = n := rfl

theorem applyMemberUpdates_empty (m : Member) : applyMemberUpdates m {} = m := rfl

theorem applyResearchAreaUpdates_empty (a : ResearchArea) :
    applyResearchAreaUpdates a {} = a := rfl

/-- A sample persisted publication row. -/
def samplePublication : Publication :=
  { id := "p1".data, title := some "T".data, journal := none,
    conference := none, year := some 2024, type := some "journal".data,
    abstract := some "Abs".data, pdfUrl := none, imageUrl := none,
    displayOrder := some 2, authorId := "u1".data }

/-- A sample persisted research-area row. -/
def sampleArea : ResearchArea :=
  { id := "a1".data, name := "NLP".data, description := none,
    parentId := none, imageUrl := none, order := some 0,
    isActive := some true }

/-- C4.  Every partial update (publication, news, member, research area)
applied with an empty payload returns the stored entity unchanged and
leaves the store unchanged; more generally a field absent from the payload
is never modified (and columns the update loop does not touch, such as
identifiers or `publishedAt`, are never modified either). -/
theorem partial_update_frame :
    (∀ (store : List Publication) (i : Str) (x : Publication),
      findById Publication.id store i = some x →
      update_publication store i {} = (some x, store))
  ∧ (∀ (store : List News) (i : Str) (x : News),
      findById News.id store i = some x →
      update_news store i {} = (some x, store))
  ∧ (∀ (store : List Member) (i : Str) (x : Member),
      findById Member.id store i = some x →
      update_member store i {} = (some x, store))
  ∧ (∀ (store : List ResearchArea) (i : Str) (x : ResearchArea),
      findById ResearchArea.id store i = some x →
      update_research_area store i {} = (some x, store))
  ∧ (∀ (p : Publication) (u : PublicationCreate),
      (u.title = none → (applyPublicationUpdates p u).title = p.title)
      ∧ (u.journal = none → (applyPublicationUpdates p u).journal = p.journal)
      ∧ (u.conference = none →
          (applyPublicationUpdates p u).conference = p.conference)
      ∧ (u.year = none → (applyPublicationUpdates p u).year = p.year)
      ∧ (u.type = none → (applyPublicationUpdates p u).type = p.type)
      ∧ (u.abstract = none → (applyPublicationUpdates p u).abstract = p.abstract)
      ∧ (u.pdfUrl = none → (applyPublicationUpdates p u).pdfUrl = p.pdfUrl)
      ∧ (u.imageUrl = none → (applyPublicationUpdates p u).imageUrl = p.imageUrl)
      ∧ (u.order = none →
          (applyPublicationUpdates p u).displayOrder = p.displayOrder)
      ∧ (applyPublicationUpdates p u).id = p.id
      ∧ (applyPublicationUpdates p u).authorId = p.authorId)
  ∧ (∀ (n : News) (u : NewsCreate),
      (u.title = none → (applyNewsUpdates n u).title = n.title)
      ∧ (u.content = none → (applyNewsUpdates n u).content = n.content)
      ∧ (u.summary = none → (applyNewsUpdates n u).summary = n.summary)
      ∧ (u.imageUrl = none → (applyNewsUpdates n u).imageUrl = n.imageUrl)
      ∧ (applyNewsUpdates n u).id = n.id
      ∧ (applyNewsUpdates n u).publishedAt = n.publishedAt
      ∧ (applyNewsUpdates n u).authorId = n.authorId
      ∧ (applyNewsUpdates n u).isPublished = n.isPublished)
  ∧ (∀ (m : Member) (u : MemberUpdate),
      (u.name = none → (applyMemberUpdates m u).name = m.name)
      ∧ (u.degree = none → (applyMemberUpdates m u).degree = m.degree)
      ∧ (u.email = none → (applyMemberUpdates m u).email = m.email)
      ∧ (u.imageUrl = none → (applyMemberUpdates m u).imageUrl = m.imageUrl)
      ∧ (u.homepage = none → (applyMemberUpdates m u).homepage = m.homepage)
      ∧ (u.joinedAt = none → (applyMemberUpdates m u).joinedAt = m.joinedAt)
      ∧ (u.status = none → (applyMemberUpdates m u).status = m.status)
      ∧ (u.bio = none → Member.bio (applyMemberUpdates m u) = Member.bio m)
      ∧ (u.researchInterests = none →
          (applyMemberUpdates m u).researchInterests = m.researchInterests)
      ∧ (applyMemberUpdates m u).id = m.id)
  ∧ (∀ (a : ResearchArea) (u : ResearchAreaCreate),
      (u.name = none → (applyResearchAreaUpdates a u).name = a.name)
      ∧ (u.description = none →
          (applyResearchAreaUpdates a u).description = a.description)
      ∧ (u.parentId = none → (applyResearchAreaUpdates a u).parentId = a.parentId)
      ∧ (u.imageUrl = none → (applyResearchAreaUpdates a u).imageUrl = a.imageUrl)
      ∧ (u.order = none → (applyResearchAreaUpdates a u).order = a.order)
      ∧ (u.isActive = none → (applyResearchAreaUpdates a u).isActive = a.isActive)
      ∧ (applyResearchAreaUpdates a u).id = a.id) := by
  refine ⟨?_, ?_, ?_, ?_, ?_, ?_, ?_, ?_⟩
  · intro store i x h
    exact updateById_found_fix Publication.id applyPublicationUpdates store i
      ({} : PublicationCreate) x h (applyPublicationUpdates_empty x)
  · intro store i x h
    exact updateById_found_fix News.id applyNewsUpdates store i
      ({} : NewsCreate) x h (applyNewsUpdates_empty x)
  · intro store i x h
    exact updateById_found_fix Member.id applyMemberUpdates store i
      ({} : MemberUpdate) x h (applyMemberUpdates_empty x)
  · intro store i x h
    exact updateById_found_fix ResearchArea.id applyResearchAreaUpdates store i
      ({} : ResearchAreaCreate) x h (applyResearchAreaUpdates_empty x)
  · intro p u
    refine ⟨fun h => ?_, fun h => ?_, fun h => ?_, fun h => ?_, fun h => ?_,
      fun h => ?_, fun h => ?_, fun h => ?_, fun h => ?_, rfl, rfl⟩ <;>
      simp [applyPublicationUpdates, h, applyField]
  · intro n u
    refine ⟨fun h => ?_, fun h => ?_, fun h => ?_, fun h => ?_,
      rfl, rfl, rfl, rfl⟩ <;>
      simp [applyNewsUpdates, h, applyField]
  · intro m u
    refine ⟨fun h => ?_, fun h => ?_, fun h => ?_, fun h => ?_, fun h => ?_,
      fun h => ?_, fun h => ?_, fun h => ?_, fun h => ?_, rfl⟩ <;>
      simp [applyMemberUpdates, h, applyField]
  · intro a u
    refine ⟨fun h => ?_, fun h => ?_, fun h => ?_, fun h => ?_, fun h => ?_,
      fun h => ?_, rfl⟩ <;>
      simp [applyResearchAreaUpdates, h, applyField]

/-- Witness for C4: empty-payload updates on concrete one-row tables
return the row and leave the table unchanged. -/
theorem partial_update_frame_witness :
    update_publication [samplePublication] "p1".data {}
      = (some samplePublication, [samplePublication])
  ∧ update_news [sampleNews1] "n1".data {} = (some sampleNews1, [sampleNews1])
  ∧ update_member [amy] "m1".data {} = (some amy, [amy])
  ∧ update_research_area [sampleArea] "a1".data {}
      = (some sampleArea, [sampleArea]) :=
  ⟨partial_update_frame.1 [samplePublication] "p1".data samplePublication
     (by decide),
   partial_update_frame.2.1 [sampleNews1] "n1".data sampleNews1 (by decide),
   partial_update_frame.2.2.1 [amy] "m1".data amy (by decide),
   partial_update_frame.2.2.2.1 [sampleArea] "a1".data sampleArea (by decide)⟩

/-! ### C5 and C6 -/

/-- The row returned by an upsert is a fixpoint of applying the same
payload again. -/
theorem upsert_result_fix (store : List LabInfo) (input : LabInfoCreate) :
    applyLabInfoUpdates (create_or_update_lab_info store input).1 input
      = (create_or_update_lab_info store input).1 := by
  cases h : findById LabInfo.id store labSettingsKey with
  | none =>
      simp only [create_or_update_lab_info, h]
      exact applyLabInfoUpdates_mk input
  | some x =>
      simp only [create_or_update_lab_info, h]
      exact applyLabInfoUpdates_idem x input

/-- C5.  `create_or_update_lab_info` is idempotent: a second call with the
same input returns the same row and the same table as the first.  When the
sentinel row exists the call applies a partial update of the supplied
fields (absent fields are never modified, the identifier never changes);
otherwise it creates the row under the sentinel key by appending it. -/
theorem lab_info_upsert_idempotent :
    (∀ (store : List LabInfo) (input : LabInfoCreate),
      create_or_update_lab_info (create_or_update_lab_info store input).2 input
        = create_or_update_lab_info store input)
  ∧ (∀ (store : List LabInfo) (input : LabInfoCreate) (x : LabInfo),
      findById LabInfo.id store labSettingsKey = some x →
      (create_or_update_lab_info store input).1 = applyLabInfoUpdates x input
      ∧ (create_or_update_lab_info store input).1.id = x.id)
  ∧ (∀ (store : List LabInfo) (input : LabInfoCreate),
      findById LabInfo.id store labSettingsKey = none →
      (create_or_update_lab_info store input).1 = mkLabInfo input
      ∧ (create_or_update_lab_info store input).2
          = store ++ [(create_or_update_lab_info store input).1]
      ∧ (create_or_update_lab_info store input).1.id = labSettingsKey)
  ∧ (∀ (l : LabInfo) (u : LabInfoCreate),
      (u.labName = none → (applyLabInfoUpdates l u).labName = l.labName)
      ∧ (u.principalInvestigator = none →
          (applyLabInfoUpdates l u).principalInvestigator = l.principalInvestigator)
      ∧ (u.piTitle = none → (applyLabInfoUpdates l u).piTitle = l.piTitle)
      ∧ (u.piEmail = none → (applyLabInfoUpdates l u).piEmail = l.piEmail)
      ∧ (u.piPhone = none → (applyLabInfoUpdates l u).piPhone = l.piPhone)
      ∧ (u.piPhoto = none → (applyLabInfoUpdates l u).piPhoto = l.piPhoto)
      ∧ (u.piBio = none → LabInfo.piBio (applyLabInfoUpdates l u) = LabInfo.piBio l)
      ∧ (u.description = none →
          (applyLabInfoUpdates l u).description = l.description)
      ∧ (u.address = none → (applyLabInfoUpdates l u).address = l.address)
      ∧ (u.latitude = none → (applyLabInfoUpdates l u).latitude = l.latitude)
      ∧ (u.longitude = none → (applyLabInfoUpdates l u).longitude = l.longitude)
      ∧ (u.building = none → (applyLabInfoUpdates l u).building = l.building)
      ∧ (u.room = none → (applyLabInfoUpdates l u).room = l.room)
      ∧ (u.university = none → (applyLabInfoUpdates l u).university = l.university)
      ∧ (u.department = none → (applyLabInfoUpdates l u).department = l.department)
      ∧ (u.website = none → (applyLabInfoUpdates l u).website = l.website)
      ∧ (u.establishedYear = none →
          (applyLabInfoUpdates l u).establishedYear = l.establishedYear)
      ∧ (u.researchFocus = none →
          (applyLabInfoUpdates l u).researchFocus = l.researchFocus)
      ∧ (u.contactEmail = none →
          (applyLabInfoUpdates l u).contactEmail = l.contactEmail)
      ∧ (u.contactPhone = none →
          (applyLabInfoUpdates l u).contactPhone = l.contactPhone)
      ∧ (u.officeHours = none →
          (applyLabInfoUpdates l u).officeHours = l.officeHours)
      ∧ (applyLabInfoUpdates l u).id = l.id) := by
  refine ⟨?_, ?_, ?_, ?_⟩
  · intro store input
    rcases hc : create_or_update_lab_info store input with ⟨r1, s2⟩
    have hfind2 := find_after_upsert store input
    rw [hc] at hfind2
    have hfix := upsert_result_fix store input
    rw [hc] at hfix
    show create_or_update_lab_info s2 input = (r1, s2)
    simp only at hfind2 hfix
    simp only [create_or_update_lab_info, hfind2, hfix]
    rw [replaceById_of_findById LabInfo.id s2 labSettingsKey r1 hfind2]
  · intro store input x h
    constructor <;> simp [create_or_update_lab_info, h, applyLabInfoUpdates_id]
  · intro store input h
    refine ⟨?_, ?_, ?_⟩ <;> simp [create_or_update_lab_info, h, mkLabInfo_id]
  · intro l u
    refine ⟨fun h => ?_, fun h => ?_, fun h => ?_, fun h => ?_, fun h => ?_,
      fun h => ?_, fun h => ?_, fun h => ?_, fun h => ?_, fun h => ?_,
      fun h => ?_, fun h => ?_, fun h => ?_, fun h => ?_, fun h => ?_,
      fun h => ?_, fun h => ?_, fun h => ?_, fun h => ?_, fun h => ?_,
      fun h => ?_, rfl⟩ <;>
      simp [applyLabInfoUpdates, h, applyField]

/-- Witness for C5: the create path on the empty table followed by the
idempotent second call, with the all-absent payload. -/
theorem lab_info_upsert_idempotent_witness :
    create_or_update_lab_info
        (create_or_update_lab_info [] ({} : LabInfoCreate)).2 {}
      = create_or_update_lab_info [] ({} : LabInfoCreate)
  ∧ (create_or_update_lab_info [] ({} : LabInfoCreate)).1.id = labSettingsKey
  ∧ (create_or_update_lab_info [mkLabInfo {}] ({} : LabInfoCreate)).1.id
      = (mkLabInfo ({} : LabInfoCreate)).id :=
  ⟨lab_info_upsert_idempotent.1 [] {},
   (lab_info_upsert_idempotent.2.2.1 [] {} rfl).2.2,
   (lab_info_upsert_idempotent.2.1 [mkLabInfo {}] {} (mkLabInfo {})
     (by decide)).2⟩

/-- C6.  Starting from a table satisfying the singleton invariant (at most
one row, keyed by the sentinel), every sequence of reads and upserts
preserves it, and two upserts with the same input leave exactly one row
whose identifier is the sentinel key. -/
theorem lab_info_singleton_invariant :
    (∀ (store : List LabInfo) (ops : List LabOp), LabInfoInv store →
      LabInfoInv (runLabOps store ops))
  ∧ (∀ (store : List LabInfo) (input : LabInfoCreate), LabInfoInv store →
      (runLabOps store [LabOp.upsert input, LabOp.upsert input]).length = 1
      ∧ (∀ r ∈ runLabOps store [LabOp.upsert input, LabOp.upsert input],
          r.id = labSettingsKey)) := by
  have hstep : ∀ (store : List LabInfo) (op : LabOp), LabInfoInv store →
      LabInfoInv (runLabOp store op) := by
    intro store op hinv
    cases op with
    | read => exact hinv
    | upsert input => exact (labInfoInv_upsert store input hinv).1
  constructor
  · intro store ops
    induction ops generalizing store with
    | nil => exact fun hinv => hinv
    | cons op rest ih =>
        intro hinv
        exact ih (runLabOp store op) (hstep store op hinv)
  · intro store input hinv
    have hinv1 : LabInfoInv (create_or_update_lab_info store input).2 :=
      (labInfoInv_upsert store input hinv).1
    have hfinal := labInfoInv_upsert (create_or_update_lab_info store input).2
      input hinv1
    exact ⟨hfinal.2, hfinal.1.2⟩

/-- Witness for C6: a read/upsert/read/upsert sequence from the empty
table keeps the invariant, and the double upsert leaves one sentinel
row. -/
theorem lab_info_singleton_invariant_witness :
    LabInfoInv (runLabOps []
      [LabOp.read, LabOp.upsert {}, LabOp.read, LabOp.upsert {}])
  ∧ (runLabOps [] [LabOp.upsert {}, LabOp.upsert {}]).length = 1 :=
  ⟨lab_info_singleton_invariant.1 []
     [LabOp.read, LabOp.upsert {}, LabOp.read, LabOp.upsert {}]
     ⟨by decide, by simp⟩,
   (lab_info_singleton_invariant.2 [] {} ⟨by decide, by simp⟩).1⟩
